import Mathlib

/-!
Shallow embedding of the opportunity DAO of this repository
(src/python_flask/opportunity/dao.py, class MongoOpportunity), together
with the parts of the data model it manipulates
(src/python_flask/opportunity/schemas.py).

Conventions of the embedding:
* Python dict keys that may be absent are (ideally) Option fields; a key
  present with value None and an absent key are conflated when the source
  only ever tests truthiness of the value.
* ObjectId values are modelled as String.
* datetime values are modelled by the structure DT below: year and month
  (needed by the reporting-period helper) plus an instant t.  The source
  calls datetime.utcnow() several times inside one operation; the model
  passes a single value now for all of them.
* Exceptions raised by the source become Except.error values; the signals
  sent on the success path become an explicit event list.  The source
  sends the assignment signal before the conflict checks, so on a
  conflict path that one signal has already fired; no claim depends on
  it and the model only reports events on the success path.
-/

structure DT where
  year : Int
  month : Int
  t : Nat
deriving DecidableEq

namespace STATUS

/-- Modelled from the spec: the STATUS constants of the Opportunity model
class (market_crm.opportunities.model, not under src).  The glossary lists
the eleven lifecycle statuses; their concrete integer codes are not in the
source tree, so distinct codes are assigned in glossary order.  The dao
code only compares codes for equality and uses them as keys of
last_status_change. -/
def FRESH : Int := 1

def DESK : Int := 2

def FI : Int := 3

def PENDING : Int := 4

def APPROVED : Int := 5

def SIGNED : Int := 6

def POSTED : Int := 7

def DELIVERED : Int := 8

def LOST : Int := 9

def TUBED : Int := 10

def CARRYOVER : Int := 11

def ALL : List Int :=
  [FRESH, DESK, FI, PENDING, APPROVED, SIGNED, POSTED, DELIVERED, LOST,
   TUBED, CARRYOVER]

end STATUS

/-- Reporting period value {year, month, quarter}.  The schema
(ReportingPeriodSchema) declares quarter dump_only, i.e. derived; a raw
user-supplied value has quarter = none, the derived value has
quarter = some q. -/
structure RP where
  year : Int
  month : Int
  quarter : Option Int
deriving DecidableEq

/-- Modelled from the spec: market_crm.utils.helper.reporting_period is
not under src.  Per the spec (sections 3 and 4.2) the helper derives the
{year, month, quarter} bucket from year and month, quarter being computed,
never user-supplied.  The call sites pass either (year, month) or a full
previously derived mapping; the helper recomputes quarter from month. -/
def reporting_period (year month : Int) : RP :=
  { year := year, month := month, quarter := some ((month - 1) / 3 + 1) }

/-- The dms_deal sub-document.  Only deal_number is claim-relevant; the
other synced DMS fields never influence the dao control flow modelled
here. -/
structure Dms where
  deal_number : Option String
deriving DecidableEq

/-- User-editable gross record (UserGrossSchema). -/
structure UserGross where
  updated_by : Option String
  updated_by_name : Option String
  updated : Option DT
  value : Option Int
deriving DecidableEq

/-- User-editable deal comment (UserDealCommentSchema). -/
structure UserDealComment where
  updated_by : Option String
  updated_by_name : Option String
  updated : Option DT
  content : Option String
deriving DecidableEq

/-- The sales_deal / accounting_deal sub-document (UserDealSchema).  A
field that is some x models a dict key that is present (possibly with an
empty dict value); none models an absent key. -/
structure UserDeal where
  frontend_gross : Option UserGross
  backend_gross : Option UserGross
  comment : Option UserDealComment
deriving DecidableEq

/-- Attachment record (OpportunityAttachmentSchema); the fields the
attachment operations touch. -/
structure Attachment where
  _id : String
  label : Option String
  deleted : Bool
deriving DecidableEq

/-- Association list for last_status_change: keys are the status codes
(the source keys the dict by str(status); decimal strings of distinct
codes are distinct, so the model keys by the code itself). -/
def lscGet : List (Int × DT) → Int → Option DT
  | [], _ => none
  | e :: m, k => if e.1 == k then some e.2 else lscGet m k

def lscSet (m : List (Int × DT)) (k : Int) (v : DT) : List (Int × DT) :=
  (k, v) :: m

/-- The Opportunity document, restricted to the fields the claims and the
dao operations modelled here read or write. -/
structure Opportunity where
  dealer_id : Int
  status : Int
  last_status_change : List (Int × DT)
  sub_status : String
  reporting_period : Option RP
  dms_deal : Option Dms
  sales_deal : UserDeal
  accounting_deal : UserDeal
  updated : Option DT
  sales_reps : List String
  sales_managers : List String
  customer_reps : List String
  bdc_reps : List String
  finance_managers : List String
  attachments : List Attachment
deriving DecidableEq

/-- Truthiness of opportunity.get('dms_deal', {}).get('deal_number'):
the key chain is present and the value is a non-empty string. -/
def Opportunity.dealNumberTruthy (o : Opportunity) : Bool :=
  match o.dms_deal with
  | none => false
  | some d =>
    match d.deal_number with
    | none => false
    | some s => s != ""

/-- The stored deal number, as an Option. -/
def Opportunity.dealNum (o : Opportunity) : Option String :=
  o.dms_deal.bind Dms.deal_number

/-- The kwargs dict of update_opportunity, restricted to the keys the dao
handles specially plus the assignment-role keys and the free-form keys the
claims exercise.  A field that is none models an absent key. -/
structure Patch where
  status : Option Int := none
  dealer_id : Option Int := none
  deal_number : Option String := none
  reporting_period : Option RP := none
  updated : Option DT := none
  sub_status : Option String := none
  dms_deal : Option Dms := none
  sales_reps : Option (List String) := none
  sales_managers : Option (List String) := none
  customer_reps : Option (List String) := none
  bdc_reps : Option (List String) := none
  finance_managers : Option (List String) := none
deriving DecidableEq

/-- Emptiness of the kwargs dict (the `if id and kwargs` guard). -/
def Patch.isEmpty (p : Patch) : Bool :=
  p.status.isNone && p.dealer_id.isNone && p.deal_number.isNone &&
  p.reporting_period.isNone && p.updated.isNone && p.sub_status.isNone &&
  p.dms_deal.isNone && p.sales_reps.isNone && p.sales_managers.isNone &&
  p.customer_reps.isNone && p.bdc_reps.isNone && p.finance_managers.isNone

inductive UpdateErr
  /-- Exception('No data provided, or invalid arguments'). -/
  | noData
  /-- Exception('Cannot change dealer on an opportunity once it has a DMS deal number'). -/
  | dealerConflict
  /-- Exception('Opportunity already has a DMS deal number assigned!'). -/
  | dealNumberConflict
deriving DecidableEq

inductive Event
  | assignment (field : String)
  | updated
  | statusUpdated (old_status : Int)
  | subStatusUpdated
deriving DecidableEq

/-- Status-change block of update_opportunity (dao.py lines 434-465):
when the patched status differs from the current one, stamp
last_status_change[new_status] with status_date_change or now, apply the
PENDING to FI backfill, and default the reporting_period key of kwargs to
the derived period of now when the patch carries none.  Returns the
mutated opportunity, the mutated kwargs and the updated_status flag. -/
def statusStage (o : Opportunity) (status_date_change : Option DT) (now : DT)
    (p : Patch) : Opportunity × Patch × Bool :=
  match p.status with
  | some s =>
    if s != o.status then
      let sdc := status_date_change.getD now
      let lsc1 := lscSet o.last_status_change s sdc
      let lsc2 :=
        if s == STATUS.PENDING && (lscGet lsc1 STATUS.FI).isNone then
          lscSet lsc1 STATUS.FI sdc
        else lsc1
      let p1 :=
        if p.reporting_period.isNone then
          { p with reporting_period := some (reporting_period now.year now.month) }
        else p
      ({ o with last_status_change := lsc2 }, p1, true)
    else (o, p, false)
  | none => (o, p, false)

/-- Modelled from the spec: opportunity.assignee_roles (model class, not
under src) is the set of the five assignment-role field names (spec
sections 2 and 3). -/
def presentAssigneeKeys (p : Patch) : List String :=
  (if p.sales_managers.isSome then ["sales_managers"] else []) ++
  (if p.sales_reps.isSome then ["sales_reps"] else []) ++
  (if p.customer_reps.isSome then ["customer_reps"] else []) ++
  (if p.bdc_reps.isSome then ["bdc_reps"] else []) ++
  (if p.finance_managers.isSome then ["finance_managers"] else [])

/-- The assignment signal fires exactly when one single assignment-role
key is present in kwargs (dao.py lines 468-472). -/
def assignEvents (p : Patch) : List Event :=
  match presentAssigneeKeys p with
  | [f] => [Event.assignment f]
  | _ => []

/-- Dealer-lock check (dao.py lines 474-479). -/
def dealerConflictB (o : Opportunity) (p : Patch) : Bool :=
  match p.dealer_id with
  | some d => o.dealNumberTruthy && (d != o.dealer_id)
  | none => false

/-- Deal-number block (dao.py lines 481-489): kwargs.pop('deal_number');
if the popped value is truthy, conflict when a different truthy number is
already stored, otherwise write the number into dms_deal. -/
def dealNumberStep (o : Opportunity) (dn : Option String) :
    Except UpdateErr Opportunity :=
  match dn with
  | some d =>
    if d != "" then
      match (o.dms_deal.getD { deal_number := none }).deal_number with
      | some e =>
        if e != "" && e != d then
          Except.error UpdateErr.dealNumberConflict
        else
          Except.ok { o with dms_deal := some { deal_number := some d } }
      | none =>
        Except.ok { o with dms_deal := some { deal_number := some d } }
    else Except.ok o
  | none => Except.ok o

/-- Reporting-period block (dao.py lines 491-493): when kwargs carries a
reporting_period, recompute the derived value into the entity.  The
helper derives quarter from year and month whatever was passed. -/
def rpStage (o : Opportunity) (p : Patch) : Opportunity :=
  match p.reporting_period with
  | some rp => { o with reporting_period := some (reporting_period rp.year rp.month) }
  | none => o

/-- Updated-stamp block (dao.py lines 495-496). -/
def updatedStage (o : Opportunity) (now : DT) (p : Patch) : Opportunity :=
  if p.updated.isNone then { o with updated := some now } else o

/-- The final opportunity.update(kwargs) merge (dao.py line 500).  The
deal_number key was popped before the merge and the Opportunity document
has no top-level deal_number field, so it does not appear here. -/
def applyPatch (o : Opportunity) (p : Patch) : Opportunity :=
  { o with
    status := p.status.getD o.status
    dealer_id := p.dealer_id.getD o.dealer_id
    sub_status := p.sub_status.getD o.sub_status
    reporting_period :=
      match p.reporting_period with
      | some rp => some rp
      | none => o.reporting_period
    dms_deal :=
      match p.dms_deal with
      | some d => some d
      | none => o.dms_deal
    updated :=
      match p.updated with
      | some u => some u
      | none => o.updated
    sales_reps := p.sales_reps.getD o.sales_reps
    sales_managers := p.sales_managers.getD o.sales_managers
    customer_reps := p.customer_reps.getD o.customer_reps
    bdc_reps := p.bdc_reps.getD o.bdc_reps
    finance_managers := p.finance_managers.getD o.finance_managers }

/-- The part of update_opportunity after the status block (dao.py lines
467-517): assignment signal bookkeeping, dealer lock, deal-number
handling, reporting-period recompute, updated stamp, merge, persistence
and the success-path signals.  oldStatus and oldSub are the status and
sub_status the entity had on entry (read by the source before any
mutation). -/
def updateAfterStatus (oldStatus : Int) (oldSub : String) (now : DT)
    (o1 : Opportunity) (p1 : Patch) (updatedStatus : Bool) :
    Except UpdateErr (Opportunity × List Event) :=
  if dealerConflictB o1 p1 then Except.error UpdateErr.dealerConflict
  else
    match dealNumberStep o1 p1.deal_number with
    | Except.error e => Except.error e
    | Except.ok o2 =>
      let o3 := rpStage o2 p1
      let o4 := updatedStage o3 now p1
      let o5 := applyPatch o4 p1
      let evs :=
        assignEvents p1 ++ [Event.updated] ++
        (if updatedStatus then [Event.statusUpdated oldStatus] else []) ++
        (if oldSub != o5.sub_status then [Event.subStatusUpdated] else [])
      Except.ok (o5, evs)

/-- update_opportunity (dao.py lines 430-519), as a function from the
stored entity, the status_date_change argument, the clock and the kwargs
patch to either a domain error or the persisted entity plus the events
signalled on the success path. -/
def update_opportunity (o : Opportunity) (status_date_change : Option DT)
    (now : DT) (p : Patch) : Except UpdateErr (Opportunity × List Event) :=
  if p.isEmpty then Except.error UpdateErr.noData
  else
    match statusStage o status_date_change now p with
    | (o1, p1, updatedStatus) =>
      updateAfterStatus o.status o.sub_status now o1 p1 updatedStatus

/-- The stored document after an update_opportunity call: the new entity
on success (full-document replace), the unchanged one when the call
raised before reaching the persistence step. -/
def persistedAfter (o : Opportunity) (status_date_change : Option DT)
    (now : DT) (p : Patch) : Opportunity :=
  match update_opportunity o status_date_change now p with
  | Except.ok r => r.1
  | Except.error _ => o

/-!
Filter compiler: make_query (dao.py lines 166-321) and the low-level list
query _get_opportunities (lines 323-339).
-/

/-- The value of one entry of the filters dict, as constrained by
OpportunitiesFilterSchema (schemas.py).  ObjectId values are strings. -/
inductive FVal
  | ids (l : List String)
  | ints (l : List Int)
  | strs (l : List String)
  | str (s : String)
  | null
  | range (dfrom dto : Option DT)
  | boolean (b : Bool)
  | rp (year month quarter : Option Int)
deriving DecidableEq

/-- An atomic store predicate as emitted by make_query: one key of a
clause dict, in the shapes the source builds. -/
inductive Leaf
  | inStrs (field : String) (vals : List String)
  | inInts (field : String) (vals : List Int)
  | inIds (field : String) (vals : List String)
  | eqStr (field : String) (v : String)
  | eqInt (field : String) (v : Int)
  | eqNull (field : String)
  /-- The clause {field: {$eq: []}} built for an empty leads filter. -/
  | eqEmptyList (field : String)
  /-- The clause {field: {$size: 0}}. -/
  | sizeZero (field : String)
  /-- The clause {field.0: {$exists: b}}. -/
  | existsIdx0 (field : String) (b : Bool)
  /-- Modelled from the spec: market_crm.utils.helper.get_date_filter is
  not under src.  Per spec section 6 it is the inclusive range predicate
  made of date_from and date_to, with an open bound when one is absent.
  The model keeps both optional bounds as data on the leaf. -/
  | dateRange (field : String) (dfrom dto : Option DT)
  /-- The regex $in clause of the keywords filter.  Tokenization of the
  raw string is done by the Python stdlib shlex (with a whitespace-split
  fallback), outside this repository; the leaf keeps the raw string and
  its store semantics is left uninterpreted. -/
  | keywordRegex (field : String) (raw : String)
deriving DecidableEq

/-- One element of the $and list built by make_query.  The source nests
$or and $and at most two levels deep: a clause is a single leaf, an $and
or $or of leaves, or (for status_date) an $or whose branches are
conjunctions of leaves. -/
inductive Clause
  | leaf (l : Leaf)
  | andL (ls : List Leaf)
  | orL (ls : List Leaf)
  | orAnd (branches : List (List Leaf))
deriving DecidableEq

/-- The filters argument of make_query: a finite mapping from filter name
to value, in iteration order. -/
abbrev FilterSpec := List (String × FVal)

/-- Compilation of one filters entry to the clauses it appends to the
$and list (the body of the for-loop of make_query, dao.py lines 173-316).
An unrecognized filter name appends nothing. -/
def entryClauses (e : String × FVal) : List Clause :=
  if e.1 = "ids" then
    match e.2 with
    | FVal.ids l => [Clause.leaf (Leaf.inIds "_id" l)]
    | _ => []
  else if e.1 = "statuses" then
    match e.2 with
    | FVal.ints l => [Clause.leaf (Leaf.inInts "status" l)]
    | _ => []
  else if e.1 = "status_date" then
    match e.2 with
    | FVal.range dfrom dto =>
      [Clause.orAnd (STATUS.ALL.map (fun s =>
        [Leaf.eqInt "status" s,
         Leaf.dateRange ("last_status_change." ++ toString s) dfrom dto]))]
    | _ => []
  else if e.1 = "assignees" then
    match e.2 with
    | FVal.strs l =>
      if l.contains "unassigned" then
        [Clause.andL [Leaf.sizeZero "sales_reps", Leaf.sizeZero "customer_reps",
                      Leaf.sizeZero "sales_managers"]]
      else
        [Clause.orL [Leaf.inStrs "sales_managers" l, Leaf.inStrs "sales_reps" l,
                     Leaf.inStrs "customer_reps" l, Leaf.inStrs "bdc_reps" l,
                     Leaf.inStrs "finance_managers" l]]
    | _ => []
  else if e.1 = "bdc_assignees" then
    match e.2 with
    | FVal.strs l =>
      if l.contains "unassigned" then [Clause.leaf (Leaf.sizeZero "bdc_reps")]
      else [Clause.leaf (Leaf.inStrs "bdc_reps" l)]
    | _ => []
  else if e.1 = "created" then
    match e.2 with
    | FVal.range dfrom dto => [Clause.leaf (Leaf.dateRange "created" dfrom dto)]
    | _ => []
  else if e.1 = "updated" then
    match e.2 with
    | FVal.range dfrom dto => [Clause.leaf (Leaf.dateRange "updated" dfrom dto)]
    | _ => []
  else if e.1 = "dealer_ids" then
    match e.2 with
    | FVal.ints l => [Clause.leaf (Leaf.inInts "dealer_id" l)]
    | _ => []
  else if e.1 = "organization_id" then
    match e.2 with
    | FVal.str s => [Clause.leaf (Leaf.eqStr "organization_id" s)]
    | _ => []
  else if e.1 = "customer_ids" then
    match e.2 with
    | FVal.ids l => [Clause.leaf (Leaf.inIds "customer_id" l)]
    | FVal.str s => [Clause.leaf (Leaf.inIds "customer_id" (s.splitOn ","))]
    | _ => []
  else if e.1 = "lead_source" ∨ e.1 = "lead_channel" ∨ e.1 = "lead_direction" then
    match e.2 with
    | FVal.str s => [Clause.leaf (Leaf.eqStr ("marketing." ++ e.1) s)]
    | _ => []
  else if e.1 = "sub_status" then
    match e.2 with
    | FVal.str s => [Clause.leaf (Leaf.eqStr "sub_status" s)]
    | _ => []
  else if e.1 = "keywords" then
    match e.2 with
    | FVal.str s =>
      [Clause.orL [Leaf.keywordRegex "customer_keywords" s,
                   Leaf.eqStr "dms_deal.deal_number" s]]
    | _ => []
  else if e.1 = "assigned_to_bdc" then
    match e.2 with
    | FVal.boolean b => [Clause.leaf (Leaf.existsIdx0 "bdc_reps" b)]
    | _ => []
  else if e.1 = "reporting_period" then
    match e.2 with
    | FVal.rp y m q =>
      (match y with
       | some v => [Clause.leaf (Leaf.eqInt "reporting_period.year" v)]
       | none => []) ++
      (match m with
       | some v => [Clause.leaf (Leaf.eqInt "reporting_period.month" v)]
       | none => []) ++
      (match q with
       | some v => [Clause.leaf (Leaf.eqInt "reporting_period.quarter" v)]
       | none => [])
    | _ => []
  else if e.1 = "stock_type" then
    match e.2 with
    | FVal.str s => [Clause.leaf (Leaf.eqStr "stock_type" s)]
    | FVal.null => [Clause.leaf (Leaf.eqNull "stock_type")]
    | _ => []
  else if e.1 = "created_by" then
    match e.2 with
    | FVal.strs l => [Clause.leaf (Leaf.inStrs "creator" l)]
    | _ => []
  else if e.1 = "pitches" then
    match e.2 with
    | FVal.strs l => [Clause.leaf (Leaf.inStrs "pitches" l)]
    | _ => []
  else if e.1 = "leads" then
    match e.2 with
    | FVal.strs l =>
      if l.isEmpty then [Clause.leaf (Leaf.eqEmptyList "leads")]
      else [Clause.leaf (Leaf.inStrs "leads" l)]
    | _ => []
  else if e.1 = "crm_lead_ids" then
    match e.2 with
    | FVal.ids l => [Clause.leaf (Leaf.inIds "crm_lead_ids" l)]
    | _ => []
  else if e.1 = "credit_applications" then
    match e.2 with
    | FVal.strs l => [Clause.leaf (Leaf.inStrs "credit_applications" l)]
    | _ => []
  else []

/-- make_query (dao.py lines 166-321): the $and clause list accumulated
over the filters entries in iteration order.  The empty list models the
match-all query {} that the source returns when no clause was produced. -/
def make_query (filters : FilterSpec) : List Clause :=
  (filters.map entryClauses).flatten

/-- The filter names the for-loop of make_query recognizes. -/
def recognizedKeys : List String :=
  ["ids", "statuses", "status_date", "assignees", "bdc_assignees",
   "created", "updated", "dealer_ids", "organization_id", "customer_ids",
   "lead_source", "lead_channel", "lead_direction", "sub_status",
   "keywords", "assigned_to_bdc", "reporting_period", "stock_type",
   "created_by", "pitches", "leads", "crm_lead_ids", "credit_applications"]

/-- The array-valued document fields whose store semantics the claims
evaluate (the five assignment sets). -/
def strListField (o : Opportunity) : String → Option (List String)
  | "sales_reps" => some o.sales_reps
  | "sales_managers" => some o.sales_managers
  | "customer_reps" => some o.customer_reps
  | "bdc_reps" => some o.bdc_reps
  | "finance_managers" => some o.finance_managers
  | _ => none

/-- Store semantics of a leaf predicate, modelled only as far as the
claims evaluate it: array emptiness ($size 0) and array membership ($in)
on the five assignment sets.  Every other leaf is treated as matching;
no claim depends on those. -/
def Leaf.holdsB (o : Opportunity) : Leaf → Bool
  | Leaf.sizeZero f =>
    match strListField o f with
    | some l => l.isEmpty
    | none => true
  | Leaf.inStrs f vals =>
    match strListField o f with
    | some l => l.any (fun x => vals.contains x)
    | none => true
  | _ => true

def Clause.holdsB (o : Opportunity) : Clause → Bool
  | Clause.leaf l => l.holdsB o
  | Clause.andL ls => ls.all (Leaf.holdsB o)
  | Clause.orL ls => ls.any (Leaf.holdsB o)
  | Clause.orAnd bs => bs.any (fun b => b.all (Leaf.holdsB o))

/-- A document matches the compiled query when every clause of the $and
list matches; the empty list is the match-all query. -/
def queryHoldsB (cs : List Clause) (o : Opportunity) : Bool :=
  cs.all (fun c => c.holdsB o)

inductive QueryErr
  /-- ValueError('Invalid query: ...'). -/
  | invalidQuery
deriving DecidableEq

/-- The low-level list query _get_opportunities (dao.py lines 323-339):
compile the filters, raise ValueError when the compiled query is falsy
(the empty dict), otherwise query the store with the conjunction of the
compiled query and the optional externally supplied filter_query.  The
model returns the final conjunction of clauses; paging and sorting do not
change which documents match. -/
def _get_opportunities (filters : FilterSpec) (filter_query : Option Clause) :
    Except QueryErr (List Clause) :=
  let query := make_query filters
  if query.isEmpty then Except.error QueryErr.invalidQuery
  else
    Except.ok (query ++ filter_query.toList)

/-!
Deal-data merge: update_opportunity_deal_data (dao.py lines 384-428).
The function acts on the sales_deal or accounting_deal sub-document of
the entity (field_name selects which); the model takes that sub-document
directly.  The returned flag is true exactly when the source persists the
entity and sends the opportunity_updated signal.
-/

def UserGross.truthy (g : UserGross) : Bool :=
  g.updated_by.isSome || g.updated_by_name.isSome || g.updated.isSome ||
  g.value.isSome

def UserDealComment.truthy (c : UserDealComment) : Bool :=
  c.updated_by.isSome || c.updated_by_name.isSome || c.updated.isSome ||
  c.content.isSome

/-- Truthiness of the sub-document as a dict: at least one key present. -/
def UserDeal.truthy (d : UserDeal) : Bool :=
  d.frontend_gross.isSome || d.backend_gross.isSome || d.comment.isSome

def emptyGross : UserGross :=
  { updated_by := none, updated_by_name := none, updated := none, value := none }

def emptyComment : UserDealComment :=
  { updated_by := none, updated_by_name := none, updated := none, content := none }

/-- dict(old, **new): keys of new win, keys only in old persist. -/
def mergeGross (old new : UserGross) : UserGross :=
  { updated_by := new.updated_by <|> old.updated_by
    updated_by_name := new.updated_by_name <|> old.updated_by_name
    updated := new.updated <|> old.updated
    value := new.value <|> old.value }

/-- dict(old, **new): keys of new win, keys only in old persist. -/
def mergeComment (old new : UserDealComment) : UserDealComment :=
  { updated_by := new.updated_by <|> old.updated_by
    updated_by_name := new.updated_by_name <|> old.updated_by_name
    updated := new.updated <|> old.updated
    content := new.content <|> old.content }

/-- The comment block of update_opportunity_deal_data (dao.py lines
390-396): when data carries a truthy comment, stamp it with now and
shallow-merge it over the stored comment. -/
def mergeCommentStage (u : UserDeal) (data : UserDeal) (now : DT) : UserDeal :=
  match data.comment with
  | some c =>
    if c.truthy then
      { u with comment := some (mergeComment (u.comment.getD emptyComment)
          { c with updated := some now }) }
    else u
  | none => u

/-- The frontend_gross block (dao.py lines 398-404). -/
def mergeFrontStage (u : UserDeal) (data : UserDeal) (now : DT) : UserDeal :=
  match data.frontend_gross with
  | some g =>
    if g.truthy then
      { u with frontend_gross := some (mergeGross (u.frontend_gross.getD emptyGross)
          { g with updated := some now }) }
    else u
  | none => u

/-- The backend_gross block (dao.py lines 406-412). -/
def mergeBackStage (u : UserDeal) (data : UserDeal) (now : DT) : UserDeal :=
  match data.backend_gross with
  | some g =>
    if g.truthy then
      { u with backend_gross := some (mergeGross (u.backend_gross.getD emptyGross)
          { g with updated := some now }) }
    else u
  | none => u

/-- update_opportunity_deal_data (dao.py lines 384-428) on the selected
sub-document: for each of comment, frontend_gross, backend_gross whose
value in the incoming data is truthy, stamp it with now and shallow-merge
it over the stored one; persist and signal exactly when the resulting
sub-document dict is truthy.  The _id key the source writes into data is
never merged into the sub-document and is dropped by the model. -/
def update_opportunity_deal_data (old : UserDeal) (data : UserDeal) (now : DT) :
    UserDeal × Bool :=
  if data.truthy then
    let ud3 := mergeBackStage (mergeFrontStage (mergeCommentStage old data now) data now) data now
    if ud3.truthy then (ud3, true) else (old, false)
  else (old, false)

/-!
Attachment modification: modify_attachment (dao.py lines 628-653) and
remove_attachment (lines 655-666).
-/

/-- The kwargs of modify_attachment, restricted to the mutable attachment
fields the claims exercise. -/
structure AttachPatch where
  label : Option String := none
  deleted : Option Bool := none
deriving DecidableEq

/-- attachment.update(kwargs): present keys win. -/
def applyAttachPatch (a : Attachment) (p : AttachPatch) : Attachment :=
  { a with
    label :=
      match p.label with
      | some l => some l
      | none => a.label
    deleted := p.deleted.getD a.deleted }

/-- modify_attachment: find_one on {_id, attachments elemMatch _id}
returns none when the opportunity has no attachment with the given id, in
which case nothing is updated and nothing is raised; otherwise every
attachment with that id is patched and the entity persisted through
update_opportunity with the whole document as kwargs (that inner call
cannot hit the conflict checks: dealer_id is unchanged and the document
has no top-level deal_number key). -/
def modify_attachment (o : Opportunity) (attachment_id : String)
    (p : AttachPatch) : Option Opportunity :=
  if o.attachments.any (fun a => a._id == attachment_id) then
    some { o with attachments :=
      o.attachments.map (fun a =>
        if a._id == attachment_id then applyAttachPatch a p else a) }
  else none

/-- remove_attachment: modify_attachment with {deleted: True}. -/
def remove_attachment (o : Opportunity) (attachment_id : String) :
    Option Opportunity :=
  modify_attachment o attachment_id { label := none, deleted := some true }

/-- The stored document after a modify_attachment call (unchanged when the
attachment was absent). -/
def persistedAfterModify (o : Opportunity) (attachment_id : String)
    (p : AttachPatch) : Opportunity :=
  (modify_attachment o attachment_id p).getD o

/-- The stored document after a remove_attachment call. -/
def persistedAfterRemove (o : Opportunity) (attachment_id : String) :
    Opportunity :=
  (remove_attachment o attachment_id).getD o

/-!
Concrete documents, patches and clock values used by the witness and
counterexample theorems below.
-/

def t0 : DT := { year := 2024, month := 1, t := 5 }

def now0 : DT := { year := 2024, month := 6, t := 100 }

/-- The sales_deal and accounting_deal value of OPPORTUNITY_DEFAULTS:
the three keys present, each an empty dict. -/
def udDefault : UserDeal :=
  { frontend_gross := some emptyGross, backend_gross := some emptyGross,
    comment := some emptyComment }

/-- A freshly created opportunity shape (after add_opportunity with the
defaults): status FRESH, its creation stamped in last_status_change, no
DMS deal. -/
def opp0 : Opportunity :=
  { dealer_id := 10
    status := STATUS.FRESH
    last_status_change := [(STATUS.FRESH, t0)]
    sub_status := ""
    reporting_period := some (reporting_period 2024 1)
    dms_deal := none
    sales_deal := udDefault
    accounting_deal := udDefault
    updated := some t0
    sales_reps := []
    sales_managers := []
    customer_reps := []
    bdc_reps := []
    finance_managers := []
    attachments := [] }

/-- An opportunity that already carries DMS deal number D100. -/
def oppDeal : Opportunity :=
  { opp0 with dms_deal := some { deal_number := some "D100" } }

def patchC1 : Patch := { dms_deal := some { deal_number := some "D200" } }

def patchC2 : Patch := { dealer_id := some 20 }

def patchC3 : Patch := { status := some STATUS.DESK }

def patchC4 : Patch := { status := some STATUS.PENDING }

def patchC7 : Patch :=
  { reporting_period := some { year := 2024, month := 5, quarter := none } }

/-- An opportunity with empty sales_reps, customer_reps and
sales_managers but a non-empty bdc_reps. -/
def oppC5 : Opportunity := { opp0 with bdc_reps := ["bob"] }

def dataC8 : UserDeal :=
  { frontend_gross := none, backend_gross := none, comment := some emptyComment }

/-- A deal-data patch carrying a non-empty comment. -/
def dataC8w : UserDeal :=
  { frontend_gross := none, backend_gross := none,
    comment := some { updated_by := some "bob", updated_by_name := none,
                      updated := none, content := some "hi" } }

/-- An opportunity with one live attachment a1. -/
def oppAtt : Opportunity :=
  { opp0 with attachments := [{ _id := "a1", label := some "f.pdf", deleted := false }] }

/-!
Helper lemmas about the update pipeline.
-/

theorem lscGet_lscSet_same (m : List (Int × DT)) (k : Int) (v : DT) :
    lscGet (lscSet m k v) k = some v := by
  simp [lscGet, lscSet]

theorem lscGet_lscSet_ne (m : List (Int × DT)) (k k2 : Int) (v : DT)
    (h : k2 ≠ k) : lscGet (lscSet m k v) k2 = lscGet m k2 := by
  have hb : (k == k2) = false := by
    exact beq_eq_false_iff_ne.mpr (fun hh => h hh.symm)
  simp [lscGet, lscSet, hb]

theorem statusStage_fst (o : Opportunity) (sdc : Option DT) (now : DT)
    (p : Patch) :
    (statusStage o sdc now p).1.dealer_id = o.dealer_id ∧
    (statusStage o sdc now p).1.dms_deal = o.dms_deal ∧
    (statusStage o sdc now p).1.sub_status = o.sub_status := by
  unfold statusStage
  cases hps : p.status with
  | none => exact ⟨rfl, rfl, rfl⟩
  | some s =>
    by_cases h : (s != o.status) = true
    · simp [h]
    · simp [h]

theorem statusStage_patch (o : Opportunity) (sdc : Option DT) (now : DT)
    (p : Patch) :
    (statusStage o sdc now p).2.1 = p ∨
    (statusStage o sdc now p).2.1 =
      { p with reporting_period := some (reporting_period now.year now.month) } := by
  unfold statusStage
  cases hps : p.status with
  | none => exact Or.inl rfl
  | some s =>
    by_cases h : (s != o.status) = true
    · by_cases h2 : p.reporting_period.isNone = true
      · right; simp [h, h2]
      · left; simp [h, h2]
    · left; simp [h]

theorem statusStage_lsc_of_change (o : Opportunity) (sdc : Option DT)
    (now : DT) (p : Patch) (s2 : Int) (hs : p.status = some s2)
    (hne : s2 ≠ o.status) :
    (statusStage o sdc now p).1.last_status_change =
      (if (s2 == STATUS.PENDING &&
            (lscGet (lscSet o.last_status_change s2 (sdc.getD now)) STATUS.FI).isNone) = true
       then lscSet (lscSet o.last_status_change s2 (sdc.getD now)) STATUS.FI (sdc.getD now)
       else lscSet o.last_status_change s2 (sdc.getD now)) := by
  unfold statusStage
  rw [hs]
  have h : (s2 != o.status) = true := bne_iff_ne.mpr hne
  simp only [h, if_true]

theorem dealNumberStep_ok_lsc (o : Opportunity) (dn : Option String)
    (o2 : Opportunity) (h : dealNumberStep o dn = Except.ok o2) :
    o2.last_status_change = o.last_status_change := by
  unfold dealNumberStep at h
  split at h
  · split at h
    · split at h
      · split at h
        · simp at h
        · injection h with h2; rw [← h2]
      · injection h with h2; rw [← h2]
    · injection h with h2; rw [← h2]
  · injection h with h2; rw [← h2]

theorem rpStage_lsc (o : Opportunity) (p : Patch) :
    (rpStage o p).last_status_change = o.last_status_change := by
  unfold rpStage
  cases p.reporting_period <;> rfl

theorem updatedStage_lsc (o : Opportunity) (now : DT) (p : Patch) :
    (updatedStage o now p).last_status_change = o.last_status_change := by
  unfold updatedStage
  by_cases h : p.updated.isNone = true
  · rw [if_pos h]
  · rw [if_neg h]

theorem applyPatch_lsc (o : Opportunity) (p : Patch) :
    (applyPatch o p).last_status_change = o.last_status_change := rfl

theorem update_opportunity_eq (o : Opportunity) (sdc : Option DT) (now : DT)
    (p : Patch) (hemp : p.isEmpty = false) :
    update_opportunity o sdc now p =
      updateAfterStatus o.status o.sub_status now (statusStage o sdc now p).1
        (statusStage o sdc now p).2.1 (statusStage o sdc now p).2.2 := by
  unfold update_opportunity
  rcases hss : statusStage o sdc now p with ⟨o1, p1, us⟩
  simp [hemp]

theorem updateAfterStatus_ok_elim (s0 : Int) (sub0 : String) (now : DT)
    (o1 : Opportunity) (p1 : Patch) (us : Bool) (o5 : Opportunity)
    (evs : List Event)
    (h : updateAfterStatus s0 sub0 now o1 p1 us = Except.ok (o5, evs)) :
    dealerConflictB o1 p1 = false ∧
    ∃ o2, dealNumberStep o1 p1.deal_number = Except.ok o2 ∧
      o5 = applyPatch (updatedStage (rpStage o2 p1) now p1) p1 := by
  unfold updateAfterStatus at h
  by_cases hdc : dealerConflictB o1 p1 = true
  · simp [hdc] at h
  · simp only [hdc, if_false, Bool.false_eq_true] at h
    refine ⟨by simpa using hdc, ?_⟩
    cases hdn : dealNumberStep o1 p1.deal_number with
    | error e => rw [hdn] at h; simp at h
    | ok o2 =>
      rw [hdn] at h
      simp only [Except.ok.injEq, Prod.mk.injEq] at h
      exact ⟨o2, rfl, h.1.symm⟩

theorem updateAfterStatus_ok_intro (s0 : Int) (sub0 : String) (now : DT)
    (o1 : Opportunity) (p1 : Patch) (us : Bool) (o2 : Opportunity)
    (hdc : dealerConflictB o1 p1 = false)
    (hdn : dealNumberStep o1 p1.deal_number = Except.ok o2) :
    ∃ o5 evs, updateAfterStatus s0 sub0 now o1 p1 us = Except.ok (o5, evs) ∧
      o5 = applyPatch (updatedStage (rpStage o2 p1) now p1) p1 := by
  refine ⟨applyPatch (updatedStage (rpStage o2 p1) now p1) p1,
    assignEvents p1 ++ [Event.updated] ++
      (if us then [Event.statusUpdated s0] else []) ++
      (if sub0 != (applyPatch (updatedStage (rpStage o2 p1) now p1) p1).sub_status
       then [Event.subStatusUpdated] else []),
    ?_, rfl⟩
  unfold updateAfterStatus
  simp [hdc, hdn]

theorem updateAfterStatus_error_dealer (s0 : Int) (sub0 : String) (now : DT)
    (o1 : Opportunity) (p1 : Patch) (us : Bool)
    (hdc : dealerConflictB o1 p1 = true) :
    updateAfterStatus s0 sub0 now o1 p1 us = Except.error UpdateErr.dealerConflict := by
  unfold updateAfterStatus
  simp [hdc]

theorem updateAfterStatus_error_dns (s0 : Int) (sub0 : String) (now : DT)
    (o1 : Opportunity) (p1 : Patch) (us : Bool) (e : UpdateErr)
    (hdc : dealerConflictB o1 p1 = false)
    (hdn : dealNumberStep o1 p1.deal_number = Except.error e) :
    updateAfterStatus s0 sub0 now o1 p1 us = Except.error e := by
  unfold updateAfterStatus
  simp [hdc, hdn]

theorem update_ok_elim (o : Opportunity) (sdc : Option DT) (now : DT)
    (p : Patch) (o5 : Opportunity) (evs : List Event)
    (h : update_opportunity o sdc now p = Except.ok (o5, evs)) :
    ∃ o2, dealNumberStep (statusStage o sdc now p).1
            (statusStage o sdc now p).2.1.deal_number = Except.ok o2 ∧
      o5 = applyPatch
            (updatedStage (rpStage o2 (statusStage o sdc now p).2.1) now
              (statusStage o sdc now p).2.1)
            (statusStage o sdc now p).2.1 := by
  by_cases he : p.isEmpty = true
  · unfold update_opportunity at h
    simp [he] at h
  · rw [update_opportunity_eq o sdc now p (by simpa using he)] at h
    obtain ⟨hdc, o2, hdn, ho5⟩ := updateAfterStatus_ok_elim _ _ _ _ _ _ _ _ h
    exact ⟨o2, hdn, ho5⟩

theorem update_ok_lsc (o : Opportunity) (sdc : Option DT) (now : DT)
    (p : Patch) (o5 : Opportunity) (evs : List Event)
    (h : update_opportunity o sdc now p = Except.ok (o5, evs)) :
    o5.last_status_change = (statusStage o sdc now p).1.last_status_change := by
  obtain ⟨o2, hdn, ho5⟩ := update_ok_elim o sdc now p o5 evs h
  rw [ho5, applyPatch_lsc, updatedStage_lsc, rpStage_lsc]
  exact dealNumberStep_ok_lsc _ _ _ hdn

/-- C2: for every update_opportunity call on an opportunity with a
non-empty dms_deal.deal_number whose patch contains a dealer_id different
from the current one, the call fails with the dealer conflict error
whatever else the patch contains, and the persisted dealer_id is
unchanged. -/
theorem C2_dealer_lock (o : Opportunity) (sdc : Option DT) (now : DT)
    (p : Patch) (d : Int) (hdn : o.dealNumberTruthy = true)
    (hd : p.dealer_id = some d) (hne : d ≠ o.dealer_id) :
    update_opportunity o sdc now p = Except.error UpdateErr.dealerConflict ∧
    (persistedAfter o sdc now p).dealer_id = o.dealer_id := by
  have hemp : p.isEmpty = false := by simp [Patch.isEmpty, hd]
  have hfst := statusStage_fst o sdc now p
  have hsnd := statusStage_patch o sdc now p
  rcases hss : statusStage o sdc now p with ⟨o1, p1, us⟩
  rw [hss] at hfst hsnd
  have hp1d : p1.dealer_id = some d := by
    have h2 : p1.dealer_id = p.dealer_id := by
      rcases hsnd with h1 | h1 <;> simpa using congrArg Patch.dealer_id h1
    rw [h2, hd]
  have ho1dn : o1.dealNumberTruthy = true := by
    have h2 : o1.dms_deal = o.dms_deal := hfst.2.1
    unfold Opportunity.dealNumberTruthy at hdn ⊢
    rw [h2]; exact hdn
  have ho1did : o1.dealer_id = o.dealer_id := hfst.1
  have hconf : dealerConflictB o1 p1 = true := by
    simp [dealerConflictB, hp1d, ho1dn, ho1did, bne_iff_ne, hne]
  have herr : update_opportunity o sdc now p = Except.error UpdateErr.dealerConflict := by
    rw [update_opportunity_eq o sdc now p hemp, hss]
    exact updateAfterStatus_error_dealer _ _ _ _ _ _ hconf
  exact ⟨herr, by simp [persistedAfter, herr]⟩

/-- C2 witness: a concrete opportunity carrying deal number D100 rejects
a patch that moves it to dealer 20. -/
theorem C2_dealer_lock_witness :
    update_opportunity oppDeal none now0 patchC2 = Except.error UpdateErr.dealerConflict ∧
    (persistedAfter oppDeal none now0 patchC2).dealer_id = oppDeal.dealer_id :=
  C2_dealer_lock oppDeal none now0 patchC2 20 (by decide) rfl (by decide)

/-- C3: for every successful update_opportunity call whose patch changes
status from S1 to S2 with S1 distinct from S2, the persisted
last_status_change maps S2 to the supplied status_date_change (or now
when none is supplied) and maps every other previously recorded status,
S1 included, to its previous timestamp. -/
theorem C3_status_history_stamping (o : Opportunity) (sdc : Option DT)
    (now : DT) (p : Patch) (s2 : Int) (o5 : Opportunity) (evs : List Event)
    (hs : p.status = some s2) (hne : s2 ≠ o.status)
    (hok : update_opportunity o sdc now p = Except.ok (o5, evs)) :
    lscGet o5.last_status_change s2 = some (sdc.getD now) ∧
    ∀ s t, s ≠ s2 → lscGet o.last_status_change s = some t →
      lscGet o5.last_status_change s = some t := by
  have hlsc5 : o5.last_status_change = (statusStage o sdc now p).1.last_status_change :=
    update_ok_lsc o sdc now p o5 evs hok
  rw [hlsc5, statusStage_lsc_of_change o sdc now p s2 hs hne]
  by_cases hb : (s2 == STATUS.PENDING &&
      (lscGet (lscSet o.last_status_change s2 (sdc.getD now)) STATUS.FI).isNone) = true
  · rw [if_pos hb]
    obtain ⟨hbp, hbn⟩ := Bool.and_eq_true_iff.mp hb
    have hs2p : s2 = STATUS.PENDING := beq_iff_eq.mp hbp
    have hs2fi : s2 ≠ STATUS.FI := by rw [hs2p]; decide
    constructor
    · rw [lscGet_lscSet_ne _ _ _ _ hs2fi, lscGet_lscSet_same]
    · intro s t hss2 hrec
      by_cases hsfi : s = STATUS.FI
      · exfalso
        rw [← hsfi, lscGet_lscSet_ne _ _ _ _ hss2, hrec] at hbn
        simp at hbn
      · rw [lscGet_lscSet_ne _ _ _ _ hsfi, lscGet_lscSet_ne _ _ _ _ hss2]
        exact hrec
  · rw [if_neg hb]
    constructor
    · exact lscGet_lscSet_same _ _ _
    · intro s t hss2 hrec
      rw [lscGet_lscSet_ne _ _ _ _ hss2]
      exact hrec

/-- C3 witness: moving the concrete fresh opportunity to DESK stamps DESK
with the clock value and leaves the FRESH timestamp untouched. -/
theorem C3_status_history_stamping_witness :
    lscGet (persistedAfter opp0 none now0 patchC3).last_status_change STATUS.DESK = some now0 ∧
    lscGet (persistedAfter opp0 none now0 patchC3).last_status_change STATUS.FRESH = some t0 := by
  have hok : update_opportunity opp0 none now0 patchC3 =
      Except.ok (persistedAfter opp0 none now0 patchC3,
        [Event.updated, Event.statusUpdated STATUS.FRESH]) := by rfl
  have h := C3_status_history_stamping opp0 none now0 patchC3 STATUS.DESK
    (persistedAfter opp0 none now0 patchC3)
    [Event.updated, Event.statusUpdated STATUS.FRESH] rfl (by decide) hok
  exact ⟨h.1, h.2 STATUS.FRESH t0 (by decide) rfl⟩

/-- C4: for every successful update_opportunity call that moves an
opportunity into PENDING, when no FI timestamp is recorded both the
PENDING and the FI entries of last_status_change are set to the same
transition time; when an FI timestamp exists it is left untouched. -/
theorem C4_pending_fi_backfill (o : Opportunity) (sdc : Option DT)
    (now : DT) (p : Patch) (o5 : Opportunity) (evs : List Event)
    (hs : p.status = some STATUS.PENDING) (hne : STATUS.PENDING ≠ o.status)
    (hok : update_opportunity o sdc now p = Except.ok (o5, evs)) :
    (lscGet o.last_status_change STATUS.FI = none →
      lscGet o5.last_status_change STATUS.PENDING = some (sdc.getD now) ∧
      lscGet o5.last_status_change STATUS.FI = some (sdc.getD now)) ∧
    (∀ t, lscGet o.last_status_change STATUS.FI = some t →
      lscGet o5.last_status_change STATUS.FI = some t) := by
  have hlsc5 : o5.last_status_change = (statusStage o sdc now p).1.last_status_change :=
    update_ok_lsc o sdc now p o5 evs hok
  rw [hlsc5, statusStage_lsc_of_change o sdc now p STATUS.PENDING hs hne]
  have hfip : STATUS.FI ≠ STATUS.PENDING := by decide
  have hget : lscGet (lscSet o.last_status_change STATUS.PENDING (sdc.getD now)) STATUS.FI =
      lscGet o.last_status_change STATUS.FI := lscGet_lscSet_ne _ _ _ _ hfip
  constructor
  · intro hnone
    have hb : (STATUS.PENDING == STATUS.PENDING &&
        (lscGet (lscSet o.last_status_change STATUS.PENDING (sdc.getD now)) STATUS.FI).isNone) = true := by
      rw [hget, hnone]; rfl
    rw [if_pos hb]
    constructor
    · rw [lscGet_lscSet_ne _ _ _ _ (by decide : STATUS.PENDING ≠ STATUS.FI),
        lscGet_lscSet_same]
    · exact lscGet_lscSet_same _ _ _
  · intro t ht
    have hcond : ¬ ((STATUS.PENDING == STATUS.PENDING &&
        (lscGet (lscSet o.last_status_change STATUS.PENDING (sdc.getD now)) STATUS.FI).isNone) = true) := by
      rw [hget, ht]
      simp
    rw [if_neg hcond, hget]
    exact ht

/-- C4 witness: moving the concrete fresh opportunity (which has no FI
timestamp) to PENDING stamps both PENDING and FI with the clock value. -/
theorem C4_pending_fi_backfill_witness :
    lscGet (persistedAfter opp0 none now0 patchC4).last_status_change STATUS.PENDING = some now0 ∧
    lscGet (persistedAfter opp0 none now0 patchC4).last_status_change STATUS.FI = some now0 := by
  have hok : update_opportunity opp0 none now0 patchC4 =
      Except.ok (persistedAfter opp0 none now0 patchC4,
        [Event.updated, Event.statusUpdated STATUS.FRESH]) := by rfl
  have h := C4_pending_fi_backfill opp0 none now0 patchC4
    (persistedAfter opp0 none now0 patchC4)
    [Event.updated, Event.statusUpdated STATUS.FRESH] rfl (by decide) hok
  exact h.1 rfl

theorem statusStage_patch_fields (o : Opportunity) (sdc : Option DT)
    (now : DT) (p : Patch) :
    (statusStage o sdc now p).2.1.dealer_id = p.dealer_id ∧
    (statusStage o sdc now p).2.1.deal_number = p.deal_number ∧
    (statusStage o sdc now p).2.1.dms_deal = p.dms_deal := by
  rcases statusStage_patch o sdc now p with h | h <;> rw [h] <;> exact ⟨rfl, rfl, rfl⟩

theorem rpStage_dms (o : Opportunity) (p : Patch) :
    (rpStage o p).dms_deal = o.dms_deal := by
  unfold rpStage
  cases p.reporting_period <;> rfl

theorem updatedStage_dms (o : Opportunity) (now : DT) (p : Patch) :
    (updatedStage o now p).dms_deal = o.dms_deal := by
  unfold updatedStage
  by_cases h : p.updated.isNone = true
  · rw [if_pos h]
  · rw [if_neg h]

theorem applyPatch_dms_none (o : Opportunity) (p : Patch)
    (h : p.dms_deal = none) : (applyPatch o p).dms_deal = o.dms_deal := by
  simp [applyPatch, h]

theorem dealNumberTruthy_elim (o : Opportunity) (h : o.dealNumberTruthy = true) :
    ∃ dms e, o.dms_deal = some dms ∧ dms.deal_number = some e ∧ e ≠ "" := by
  unfold Opportunity.dealNumberTruthy at h
  cases hdm : o.dms_deal with
  | none => rw [hdm] at h; simp at h
  | some dms =>
    rw [hdm] at h
    simp only [] at h
    cases hdn : dms.deal_number with
    | none => rw [hdn] at h; simp at h
    | some e =>
      rw [hdn] at h
      refine ⟨dms, e, rfl, hdn, ?_⟩
      simpa using h

/-- The three behaviours of the deal-number block when a truthy deal
number is already stored: writing the same number succeeds and keeps it,
writing a different non-empty number raises, and any successful outcome
leaves the stored number unchanged. -/
theorem dealNumberStep_truthy (o : Opportunity) (dms : Dms) (e : String)
    (dn : Option String) (hdm : o.dms_deal = some dms)
    (hde : dms.deal_number = some e) (hene : e ≠ "") :
    (dn = some e →
      dealNumberStep o dn = Except.ok { o with dms_deal := some { deal_number := some e } }) ∧
    (∀ d, dn = some d → d ≠ "" → d ≠ e →
      dealNumberStep o dn = Except.error UpdateErr.dealNumberConflict) ∧
    (∀ o2, dealNumberStep o dn = Except.ok o2 → o2.dealNum = some e) := by
  have hgd : o.dms_deal.getD { deal_number := none } = dms := by rw [hdm]; rfl
  refine ⟨?_, ?_, ?_⟩
  · intro hdn
    subst hdn
    simp [dealNumberStep, hgd, hde, hene]
  · intro d hdn hdne hdiff
    subst hdn
    have hediff : e ≠ d := fun hh => hdiff hh.symm
    simp [dealNumberStep, hgd, hde, hdne, hene, hediff]
  · intro o2 hok
    unfold dealNumberStep at hok
    split at hok
    · rename_i d
      rw [hgd, hde] at hok
      split at hok
      · rename_i hdt
        simp only [] at hok
        split at hok
        · simp at hok
        · rename_i hcond
          have hed : e = d := by
            by_contra hne2
            exact hcond (by simp [hene, hne2])
          injection hok with h2
          rw [← h2]
          unfold Opportunity.dealNum
          simp [hed]
      · injection hok with h2
        rw [← h2]
        unfold Opportunity.dealNum
        simp [hdm, hde]
    · injection hok with h2
      rw [← h2]
      unfold Opportunity.dealNum
      simp [hdm, hde]

/-- C1 (amended): on an opportunity whose dms_deal.deal_number is
non-empty, for patches that do not themselves carry a dms_deal object the
stored deal number is never cleared or replaced by a successful
update_opportunity; a patch whose deal_number is a non-empty value
different from the stored one always fails with an error; and a patch
carrying the stored deal number itself does not fail on that field: if no
dealer change is requested the update succeeds (and, when the patch
carries no dms_deal object, the stored number is unchanged by the first
conjunct). -/
theorem C1_deal_number_exclusivity (o : Opportunity) (sdc : Option DT)
    (now : DT) (p : Patch) (hdnt : o.dealNumberTruthy = true) :
    (p.dms_deal = none →
      ∀ o5 evs, update_opportunity o sdc now p = Except.ok (o5, evs) →
        o5.dealNum = o.dealNum) ∧
    (∀ d, p.deal_number = some d → d ≠ "" → o.dealNum ≠ some d →
      ∃ e, update_opportunity o sdc now p = Except.error e) ∧
    (p.deal_number = o.dealNum →
      (∀ d2, p.dealer_id = some d2 → d2 = o.dealer_id) →
      ∃ o5 evs, update_opportunity o sdc now p = Except.ok (o5, evs)) := by
  obtain ⟨dms, e, hdm, hde, hene⟩ := dealNumberTruthy_elim o hdnt
  have hoN : o.dealNum = some e := by
    unfold Opportunity.dealNum
    rw [hdm]
    simp [hde]
  have hfst := statusStage_fst o sdc now p
  have hpf := statusStage_patch_fields o sdc now p
  have ho1dm : (statusStage o sdc now p).1.dms_deal = some dms := by
    rw [hfst.2.1, hdm]
  refine ⟨?_, ?_, ?_⟩
  · intro hnod o5 evs hok
    obtain ⟨o2, hdn, ho5⟩ := update_ok_elim o sdc now p o5 evs hok
    have h2 : o2.dealNum = some e :=
      (dealNumberStep_truthy (statusStage o sdc now p).1 dms e
        (statusStage o sdc now p).2.1.deal_number ho1dm hde hene).2.2 o2 hdn
    have hp1dms : (statusStage o sdc now p).2.1.dms_deal = none := by
      rw [hpf.2.2]
      exact hnod
    rw [ho5, hoN]
    unfold Opportunity.dealNum
    rw [applyPatch_dms_none _ _ hp1dms, updatedStage_dms, rpStage_dms]
    unfold Opportunity.dealNum at h2
    rw [h2]
  · intro d hpd hdne hdiff
    have hemp : p.isEmpty = false := by simp [Patch.isEmpty, hpd]
    by_cases hdc : dealerConflictB (statusStage o sdc now p).1
        (statusStage o sdc now p).2.1 = true
    · refine ⟨UpdateErr.dealerConflict, ?_⟩
      rw [update_opportunity_eq o sdc now p hemp]
      exact updateAfterStatus_error_dealer _ _ _ _ _ _ hdc
    · refine ⟨UpdateErr.dealNumberConflict, ?_⟩
      rw [update_opportunity_eq o sdc now p hemp]
      apply updateAfterStatus_error_dns
      · simpa using hdc
      · have hpdn : (statusStage o sdc now p).2.1.deal_number = some d := by
          rw [hpf.2.1]
          exact hpd
        have hdneq : d ≠ e := by
          intro hh
          exact hdiff (by rw [hoN, hh])
        rw [hpdn]
        exact (dealNumberStep_truthy (statusStage o sdc now p).1 dms e
          (some d) ho1dm hde hene).2.1 d rfl hdne hdneq
  · intro hpdeq hdlr
    have hpd : p.deal_number = some e := by rw [hpdeq, hoN]
    have hemp : p.isEmpty = false := by simp [Patch.isEmpty, hpd]
    have hdc : dealerConflictB (statusStage o sdc now p).1
        (statusStage o sdc now p).2.1 = false := by
      unfold dealerConflictB
      rw [hpf.1]
      cases hpdid : p.dealer_id with
      | none => rfl
      | some d2 =>
        have hd2 : d2 = o.dealer_id := hdlr d2 hpdid
        simp [hd2, hfst.1]
    have hok1 : dealNumberStep (statusStage o sdc now p).1 (some e) =
        Except.ok { (statusStage o sdc now p).1 with
          dms_deal := some { deal_number := some e } } :=
      (dealNumberStep_truthy (statusStage o sdc now p).1 dms e (some e)
        ho1dm hde hene).1 rfl
    have hpdn : (statusStage o sdc now p).2.1.deal_number = some e := by
      rw [hpf.2.1]
      exact hpd
    obtain ⟨o5, evs, hok, _⟩ := updateAfterStatus_ok_intro o.status o.sub_status
      now (statusStage o sdc now p).1 (statusStage o sdc now p).2.1
      (statusStage o sdc now p).2.2 _ hdc (by rw [hpdn]; exact hok1)
    refine ⟨o5, evs, ?_⟩
    rw [update_opportunity_eq o sdc now p hemp]
    exact hok

/-- C1 counterexample: the claim says the stored deal_number is never
cleared or replaced via ordinary update, yet update_opportunity on an
opportunity storing D100, given a patch whose kwargs carry a dms_deal
object wholesale (exactly what edit_deal_number in the same file does,
and what the PATCH endpoint schema admits), succeeds and replaces the
stored number with D200. -/
theorem C1_counterexample :
    (∃ o5 evs, update_opportunity oppDeal none now0 patchC1 = Except.ok (o5, evs)) ∧
    oppDeal.dealNum = some "D100" ∧
    (persistedAfter oppDeal none now0 patchC1).dealNum = some "D200" := by
  refine ⟨⟨{ oppDeal with dms_deal := some { deal_number := some "D200" }, updated := some now0 }, [Event.updated], ?_⟩, rfl, rfl⟩
  rfl

/-- C1 witness: re-sending the stored deal number D100 on the concrete
opportunity succeeds. -/
theorem C1_deal_number_exclusivity_witness :
    ∃ o5 evs, update_opportunity oppDeal none now0
      { deal_number := some "D100" } = Except.ok (o5, evs) :=
  (C1_deal_number_exclusivity oppDeal none now0
    { deal_number := some "D100" } rfl).2.2 rfl
    (fun _ h => Option.noConfusion h)

/-- C7: evaluation of update_opportunity at the failing input.  The
source computes the derived reporting period into the entity (dao.py
lines 491-493) but the subsequent opportunity.update(kwargs) at line 500
overwrites it with the raw patch value, so the persisted
reporting_period is the user-supplied {year, month} with no derived
quarter, while the derived value the claim demands would carry
quarter 2. -/
theorem C7_reporting_period_clobbered :
    (∃ evs, update_opportunity opp0 none now0 patchC7 =
      Except.ok (persistedAfter opp0 none now0 patchC7, evs)) ∧
    (persistedAfter opp0 none now0 patchC7).reporting_period =
      some { year := 2024, month := 5, quarter := none } ∧
    reporting_period 2024 5 = { year := 2024, month := 5, quarter := some 2 } := by
  exact ⟨⟨[Event.updated], rfl⟩, rfl, rfl⟩

/-- C5 counterexample: the compiled unassigned query accepts an entity
whose bdc_reps is non-empty (it only constrains sales_reps,
customer_reps and sales_managers, dao.py lines 202-206), so it does not
match only entities with all five assignment sets empty. -/
theorem C5_counterexample :
    queryHoldsB (make_query [("assignees", FVal.strs ["unassigned"])]) oppC5 = true ∧
    oppC5.bdc_reps ≠ [] := by
  exact ⟨rfl, by decide⟩

/-- C5 (amended): compiling assignees containing the sentinel value
unassigned yields a query matching exactly the entities whose
sales_reps, customer_reps and sales_managers are all empty, leaving
bdc_reps and finance_managers unconstrained; compiling ordinary values
yields a query matching exactly the entities where some member of one of
the five assignment sets appears among the values. -/
theorem C5_assignees_semantics (l : List String) (o : Opportunity) :
    ("unassigned" ∈ l →
      (queryHoldsB (make_query [("assignees", FVal.strs l)]) o = true ↔
        o.sales_reps = [] ∧ o.customer_reps = [] ∧ o.sales_managers = [])) ∧
    ("unassigned" ∉ l →
      (queryHoldsB (make_query [("assignees", FVal.strs l)]) o = true ↔
        ((∃ x ∈ o.sales_managers, x ∈ l) ∨ (∃ x ∈ o.sales_reps, x ∈ l) ∨
         (∃ x ∈ o.customer_reps, x ∈ l) ∨ (∃ x ∈ o.bdc_reps, x ∈ l) ∨
         (∃ x ∈ o.finance_managers, x ∈ l)))) := by
  constructor
  · intro hmem
    simp [make_query, entryClauses, hmem, queryHoldsB, Clause.holdsB, Leaf.holdsB,
      strListField, List.isEmpty_iff, and_assoc]
  · intro hmem
    simp [make_query, entryClauses, hmem, queryHoldsB, Clause.holdsB, Leaf.holdsB,
      strListField, List.any_eq_true, or_assoc]

/-- C5 witness: the all-empty concrete opportunity matches the compiled
unassigned query. -/
theorem C5_assignees_semantics_witness :
    queryHoldsB (make_query [("assignees", FVal.strs ["unassigned"])]) opp0 = true :=
  ((C5_assignees_semantics ["unassigned"] opp0).1 (by decide)).mpr ⟨rfl, rfl, rfl⟩

/-- C6 counterexample: make_query of the empty FilterSpec is the
match-all query, but _get_opportunities raises the invalid-query
ValueError on it (dao.py lines 325-326) instead of succeeding with the
match-all result. -/
theorem C6_counterexample :
    make_query [] = ([] : List Clause) ∧
    _get_opportunities [] none = Except.error QueryErr.invalidQuery :=
  ⟨rfl, rfl⟩

/-- C6 (amended): compiling the empty FilterSpec returns the match-all
query, which every document matches; however the list-query path
_get_opportunities raises the invalid-query error whenever the compiled
query is empty — the empty FilterSpec included — rather than returning
the match-all result. -/
theorem C6_empty_filter (fq : Option Clause) (o : Opportunity)
    (F : FilterSpec) (hF : make_query F = []) :
    make_query ([] : FilterSpec) = [] ∧
    queryHoldsB (make_query ([] : FilterSpec)) o = true ∧
    _get_opportunities F fq = Except.error QueryErr.invalidQuery := by
  refine ⟨rfl, rfl, ?_⟩
  unfold _get_opportunities
  simp [hF]

/-- C6 witness: a filters dict carrying only an unrecognized key compiles
to the empty query and makes the list path raise. -/
theorem C6_empty_filter_witness :
    _get_opportunities [("no_such_filter", FVal.null)] none =
      Except.error QueryErr.invalidQuery :=
  (C6_empty_filter none opp0 [("no_such_filter", FVal.null)] rfl).2.2

/-- C9: an unrecognized filter key contributes no clause and raises no
error: inserting any value under such a key anywhere in a FilterSpec
leaves the compiled query unchanged. -/
theorem C9_unknown_filter_ignored (F1 F2 : FilterSpec) (k : String)
    (v : FVal) (hk : k ∉ recognizedKeys) :
    make_query (F1 ++ (k, v) :: F2) = make_query (F1 ++ F2) := by
  have hz : entryClauses (k, v) = [] := by
    simp only [recognizedKeys, List.mem_cons, List.not_mem_nil, or_false,
      not_or] at hk
    obtain ⟨h1, h2, h3, h4, h5, h6, h7, h8, h9, h10, h11, h12, h13, h14, h15,
      h16, h17, h18, h19, h20, h21, h22, h23⟩ := hk
    simp [entryClauses, h1, h2, h3, h4, h5, h6, h7, h8, h9, h10, h11, h12,
      h13, h14, h15, h16, h17, h18, h19, h20, h21, h22, h23]
  simp [make_query, hz]

/-- C9 witness: a made-up filter key next to a statuses filter does not
change the compiled query. -/
theorem C9_unknown_filter_ignored_witness :
    make_query [("statuses", FVal.ints [1]), ("frobnicate", FVal.str "x")] =
      make_query [("statuses", FVal.ints [1])] :=
  C9_unknown_filter_ignored [("statuses", FVal.ints [1])] [] "frobnicate"
    (FVal.str "x") (by decide)

theorem mergeCommentStage_of_truthy (u data : UserDeal) (now : DT)
    (c : UserDealComment) (hc : data.comment = some c) (ht : c.truthy = true) :
    mergeCommentStage u data now =
      { u with comment := some (mergeComment (u.comment.getD emptyComment)
          { c with updated := some now }) } := by
  unfold mergeCommentStage
  rw [hc]
  simp [ht]

theorem mergeCommentStage_of_not (u data : UserDeal) (now : DT)
    (h : data.comment = none ∨ ∃ c, data.comment = some c ∧ c.truthy = false) :
    mergeCommentStage u data now = u := by
  unfold mergeCommentStage
  rcases h with h | ⟨c, hc, ht⟩
  · rw [h]
  · rw [hc]
    simp [ht]

theorem mergeFrontStage_of_truthy (u data : UserDeal) (now : DT)
    (g : UserGross) (hg : data.frontend_gross = some g) (ht : g.truthy = true) :
    mergeFrontStage u data now =
      { u with frontend_gross := some (mergeGross (u.frontend_gross.getD emptyGross)
          { g with updated := some now }) } := by
  unfold mergeFrontStage
  rw [hg]
  simp [ht]

theorem mergeFrontStage_of_not (u data : UserDeal) (now : DT)
    (h : data.frontend_gross = none ∨
      ∃ g, data.frontend_gross = some g ∧ g.truthy = false) :
    mergeFrontStage u data now = u := by
  unfold mergeFrontStage
  rcases h with h | ⟨g, hg, ht⟩
  · rw [h]
  · rw [hg]
    simp [ht]

theorem mergeBackStage_of_truthy (u data : UserDeal) (now : DT)
    (g : UserGross) (hg : data.backend_gross = some g) (ht : g.truthy = true) :
    mergeBackStage u data now =
      { u with backend_gross := some (mergeGross (u.backend_gross.getD emptyGross)
          { g with updated := some now }) } := by
  unfold mergeBackStage
  rw [hg]
  simp [ht]

theorem mergeBackStage_of_not (u data : UserDeal) (now : DT)
    (h : data.backend_gross = none ∨
      ∃ g, data.backend_gross = some g ∧ g.truthy = false) :
    mergeBackStage u data now = u := by
  unfold mergeBackStage
  rcases h with h | ⟨g, hg, ht⟩
  · rw [h]
  · rw [hg]
    simp [ht]

theorem mergeCommentStage_frontend (u data : UserDeal) (now : DT) :
    (mergeCommentStage u data now).frontend_gross = u.frontend_gross := by
  unfold mergeCommentStage
  cases data.comment with
  | none => rfl
  | some c => by_cases h : c.truthy = true <;> simp [h]

theorem mergeCommentStage_backend (u data : UserDeal) (now : DT) :
    (mergeCommentStage u data now).backend_gross = u.backend_gross := by
  unfold mergeCommentStage
  cases data.comment with
  | none => rfl
  | some c => by_cases h : c.truthy = true <;> simp [h]

theorem mergeFrontStage_comment (u data : UserDeal) (now : DT) :
    (mergeFrontStage u data now).comment = u.comment := by
  unfold mergeFrontStage
  cases data.frontend_gross with
  | none => rfl
  | some g => by_cases h : g.truthy = true <;> simp [h]

theorem mergeFrontStage_backend (u data : UserDeal) (now : DT) :
    (mergeFrontStage u data now).backend_gross = u.backend_gross := by
  unfold mergeFrontStage
  cases data.frontend_gross with
  | none => rfl
  | some g => by_cases h : g.truthy = true <;> simp [h]

theorem mergeBackStage_comment (u data : UserDeal) (now : DT) :
    (mergeBackStage u data now).comment = u.comment := by
  unfold mergeBackStage
  cases data.backend_gross with
  | none => rfl
  | some g => by_cases h : g.truthy = true <;> simp [h]

theorem mergeBackStage_frontend (u data : UserDeal) (now : DT) :
    (mergeBackStage u data now).frontend_gross = u.frontend_gross := by
  unfold mergeBackStage
  cases data.backend_gross with
  | none => rfl
  | some g => by_cases h : g.truthy = true <;> simp [h]

theorem mergeCommentStage_truthy_mono (u data : UserDeal) (now : DT)
    (h : u.truthy = true) : (mergeCommentStage u data now).truthy = true := by
  unfold mergeCommentStage
  cases data.comment with
  | none => exact h
  | some c =>
    by_cases ht : c.truthy = true
    · simp [ht, UserDeal.truthy]
    · simp [ht]
      exact h

theorem mergeFrontStage_truthy_mono (u data : UserDeal) (now : DT)
    (h : u.truthy = true) : (mergeFrontStage u data now).truthy = true := by
  unfold mergeFrontStage
  cases data.frontend_gross with
  | none => exact h
  | some g =>
    by_cases ht : g.truthy = true
    · simp [ht, UserDeal.truthy]
    · simp [ht]
      exact h

theorem mergeBackStage_truthy_mono (u data : UserDeal) (now : DT)
    (h : u.truthy = true) : (mergeBackStage u data now).truthy = true := by
  unfold mergeBackStage
  cases data.backend_gross with
  | none => exact h
  | some g =>
    by_cases ht : g.truthy = true
    · simp [ht, UserDeal.truthy]
    · simp [ht]
      exact h

/-- C8 (amended): each of comment, frontend_gross, backend_gross that is
present and non-empty in the incoming data is stamped with the current
time and shallow-merged over the stored sub-object (keys of the incoming
value win, omitted keys persist); sub-objects not supplied, or supplied
empty, are left unchanged; and the entity is persisted with an updated
event emitted exactly when the resulting sub-document is non-empty as a
dict — in particular also when no sub-field actually changed. -/
theorem C8_deal_data_merge (old data : UserDeal) (now : DT)
    (hdt : data.truthy = true) :
    (∀ c, data.comment = some c → c.truthy = true →
      (update_opportunity_deal_data old data now).2 = true ∧
      (update_opportunity_deal_data old data now).1.comment =
        some { updated_by := c.updated_by <|> (old.comment.getD emptyComment).updated_by,
               updated_by_name := c.updated_by_name <|> (old.comment.getD emptyComment).updated_by_name,
               updated := some now,
               content := c.content <|> (old.comment.getD emptyComment).content }) ∧
    (∀ g, data.frontend_gross = some g → g.truthy = true →
      (update_opportunity_deal_data old data now).2 = true ∧
      (update_opportunity_deal_data old data now).1.frontend_gross =
        some { updated_by := g.updated_by <|> (old.frontend_gross.getD emptyGross).updated_by,
               updated_by_name := g.updated_by_name <|> (old.frontend_gross.getD emptyGross).updated_by_name,
               updated := some now,
               value := g.value <|> (old.frontend_gross.getD emptyGross).value }) ∧
    (∀ g, data.backend_gross = some g → g.truthy = true →
      (update_opportunity_deal_data old data now).2 = true ∧
      (update_opportunity_deal_data old data now).1.backend_gross =
        some { updated_by := g.updated_by <|> (old.backend_gross.getD emptyGross).updated_by,
               updated_by_name := g.updated_by_name <|> (old.backend_gross.getD emptyGross).updated_by_name,
               updated := some now,
               value := g.value <|> (old.backend_gross.getD emptyGross).value }) ∧
    ((data.comment = none ∨ ∃ c, data.comment = some c ∧ c.truthy = false) →
      (update_opportunity_deal_data old data now).1.comment = old.comment) ∧
    ((data.frontend_gross = none ∨ ∃ g, data.frontend_gross = some g ∧ g.truthy = false) →
      (update_opportunity_deal_data old data now).1.frontend_gross = old.frontend_gross) ∧
    ((data.backend_gross = none ∨ ∃ g, data.backend_gross = some g ∧ g.truthy = false) →
      (update_opportunity_deal_data old data now).1.backend_gross = old.backend_gross) ∧
    ((update_opportunity_deal_data old data now).2 = true ↔
      (update_opportunity_deal_data old data now).1.truthy = true) := by
  set M := mergeBackStage (mergeFrontStage (mergeCommentStage old data now) data now) data now with hMdef
  have heq : update_opportunity_deal_data old data now =
      (if M.truthy then (M, true) else (old, false)) := by
    unfold update_opportunity_deal_data
    rw [← hMdef]
    simp [hdt]
  have hMc : M.comment = (mergeCommentStage old data now).comment := by
    rw [hMdef, mergeBackStage_comment, mergeFrontStage_comment]
  have hMf : M.frontend_gross = (mergeFrontStage (mergeCommentStage old data now) data now).frontend_gross := by
    rw [hMdef, mergeBackStage_frontend]
  refine ⟨?_, ?_, ?_, ?_, ?_, ?_, ?_⟩
  · intro c hc ht
    have h1 := mergeCommentStage_of_truthy old data now c hc ht
    have hc2 : M.comment = some (mergeComment (old.comment.getD emptyComment)
        { c with updated := some now }) := by
      rw [hMc, h1]
    have hMt : M.truthy = true := by
      simp [UserDeal.truthy, hc2]
    rw [heq]
    simp only [hMt, if_true]
    refine ⟨by trivial, ?_⟩
    rw [hc2]
    simp [mergeComment]
  · intro g hg ht
    have h1 := mergeFrontStage_of_truthy (mergeCommentStage old data now) data now g hg ht
    have hf2 : M.frontend_gross = some (mergeGross (old.frontend_gross.getD emptyGross)
        { g with updated := some now }) := by
      rw [hMf, h1]
      simp [mergeCommentStage_frontend]
    have hMt : M.truthy = true := by
      simp [UserDeal.truthy, hf2]
    rw [heq]
    simp only [hMt, if_true]
    refine ⟨by trivial, ?_⟩
    rw [hf2]
    simp [mergeGross]
  · intro g hg ht
    have h1 := mergeBackStage_of_truthy (mergeFrontStage (mergeCommentStage old data now) data now) data now g hg ht
    have hb2 : M.backend_gross = some (mergeGross (old.backend_gross.getD emptyGross)
        { g with updated := some now }) := by
      rw [hMdef, h1]
      simp [mergeFrontStage_backend, mergeCommentStage_backend]
    have hMt : M.truthy = true := by
      simp [UserDeal.truthy, hb2]
    rw [heq]
    simp only [hMt, if_true]
    refine ⟨by trivial, ?_⟩
    rw [hb2]
    simp [mergeGross]
  · intro h
    have hc2 : M.comment = old.comment := by
      rw [hMc, mergeCommentStage_of_not old data now h]
    rw [heq]
    by_cases hMt : M.truthy = true
    · simp [hMt, hc2]
    · simp [hMt]
  · intro h
    have hf2 : M.frontend_gross = old.frontend_gross := by
      rw [hMf, mergeFrontStage_of_not (mergeCommentStage old data now) data now h]
      exact mergeCommentStage_frontend old data now
    rw [heq]
    by_cases hMt : M.truthy = true
    · simp [hMt, hf2]
    · simp [hMt]
  · intro h
    have hb2 : M.backend_gross = old.backend_gross := by
      rw [hMdef, mergeBackStage_of_not (mergeFrontStage (mergeCommentStage old data now) data now) data now h,
        mergeFrontStage_backend]
      exact mergeCommentStage_backend old data now
    rw [heq]
    by_cases hMt : M.truthy = true
    · simp [hMt, hb2]
    · simp [hMt]
  · constructor
    · intro h2
      by_cases hMt : M.truthy = true
      · rw [heq]
        simp [hMt]
      · rw [heq] at h2
        simp [hMt] at h2
    · intro h1
      by_cases hMt : M.truthy = true
      · rw [heq]
        simp [hMt]
      · exfalso
        rw [heq] at h1
        simp only [hMt, if_false, Bool.false_eq_true] at h1
        apply hMt
        rw [hMdef]
        exact mergeBackStage_truthy_mono _ _ _
          (mergeFrontStage_truthy_mono _ _ _
            (mergeCommentStage_truthy_mono _ _ _ h1))

/-- C8 counterexample: with the default (non-empty but unchanged)
sub-document and a patch whose only key is an empty comment, nothing is
merged — no sub-field changes — yet the entity is persisted and the
updated event is emitted. -/
theorem C8_counterexample :
    update_opportunity_deal_data udDefault dataC8 now0 = (udDefault, true) := by
  rfl

/-- C8 witness: a patch with a non-empty comment on the default
sub-document is stamped and merged, and persisted. -/
theorem C8_deal_data_merge_witness :
    (update_opportunity_deal_data udDefault dataC8w now0).2 = true ∧
    (update_opportunity_deal_data udDefault dataC8w now0).1.comment =
      some { updated_by := some "bob" <|> (udDefault.comment.getD emptyComment).updated_by,
             updated_by_name := none <|> (udDefault.comment.getD emptyComment).updated_by_name,
             updated := some now0,
             content := some "hi" <|> (udDefault.comment.getD emptyComment).content } :=
  (C8_deal_data_merge udDefault dataC8w now0 rfl).1
    { updated_by := some "bob", updated_by_name := none, updated := none,
      content := some "hi" } rfl rfl

theorem modify_attachment_of_mem (o : Opportunity) (aid : String)
    (p : AttachPatch)
    (h : o.attachments.any (fun a => a._id == aid) = true) :
    modify_attachment o aid p =
      some { o with attachments := o.attachments.map (fun a =>
        if a._id == aid then applyAttachPatch a p else a) } := by
  unfold modify_attachment
  rw [if_pos h]

theorem modify_attachment_of_not (o : Opportunity) (aid : String)
    (p : AttachPatch)
    (h : o.attachments.any (fun a => a._id == aid) = false) :
    modify_attachment o aid p = none := by
  unfold modify_attachment
  rw [if_neg]
  simp [h]

theorem persistedAfterRemove_of (x : Opportunity) (aid : String)
    (y : Opportunity) (h : remove_attachment x aid = some y) :
    persistedAfterRemove x aid = y := by
  unfold persistedAfterRemove
  rw [h]
  rfl

theorem removed_deleted (l : List Attachment) (aid : String) (a : Attachment)
    (ha : a ∈ l.map (fun b =>
      if b._id == aid then applyAttachPatch b { label := none, deleted := some true } else b))
    (hid : a._id = aid) : a.deleted = true := by
  obtain ⟨b, hb, hfb⟩ := List.mem_map.mp ha
  by_cases hbc : (b._id == aid) = true
  · rw [← hfb]
    simp [hbc, applyAttachPatch]
  · rw [← hfb] at hid
    simp [hbc] at hid
    exact absurd (beq_iff_eq.mpr hid) hbc

theorem removed_id (aid : String) (b : Attachment) :
    ((if b._id == aid then applyAttachPatch b { label := none, deleted := some true } else b))._id = b._id := by
  by_cases hbc : (b._id == aid) = true
  · simp [hbc, applyAttachPatch]
  · simp [hbc]

/-- C10: modifying (hence removing) an attachment the opportunity does
not have returns an absent result and performs no persistence update (no
exception path exists: the operation is total); when the attachment
exists, removal keeps the attachments sequence at the same length, is
repeatable, and after one or two removals the attachment with that id
has deleted = true. -/
theorem C10_attachment_modify_safe (o : Opportunity) (aid : String)
    (p : AttachPatch) :
    ((∀ a ∈ o.attachments, a._id ≠ aid) →
      modify_attachment o aid p = none ∧ persistedAfterModify o aid p = o) ∧
    ((∃ a ∈ o.attachments, a._id = aid) →
      (remove_attachment o aid).isSome = true ∧
      (persistedAfterRemove o aid).attachments.length = o.attachments.length ∧
      (∀ a ∈ (persistedAfterRemove o aid).attachments, a._id = aid → a.deleted = true) ∧
      (remove_attachment (persistedAfterRemove o aid) aid).isSome = true ∧
      (persistedAfterRemove (persistedAfterRemove o aid) aid).attachments.length = o.attachments.length ∧
      (∀ a ∈ (persistedAfterRemove (persistedAfterRemove o aid) aid).attachments,
        a._id = aid → a.deleted = true)) := by
  constructor
  · intro hall
    have hany : o.attachments.any (fun a => a._id == aid) = false := by
      rw [List.any_eq_false]
      intro a ha
      simp only [beq_iff_eq]
      exact hall a ha
    refine ⟨modify_attachment_of_not o aid p hany, ?_⟩
    simp [persistedAfterModify, modify_attachment_of_not o aid p hany]
  · rintro ⟨a0, ha0, hid0⟩
    have hany : o.attachments.any (fun a => a._id == aid) = true := by
      rw [List.any_eq_true]
      exact ⟨a0, ha0, by simp [hid0]⟩
    have h1 := modify_attachment_of_mem o aid { label := none, deleted := some true } hany
    have hrem1 : remove_attachment o aid =
        some { o with attachments := o.attachments.map (fun a =>
          if a._id == aid then applyAttachPatch a { label := none, deleted := some true } else a) } := h1
    have hp1 : persistedAfterRemove o aid =
        { o with attachments := o.attachments.map (fun a =>
          if a._id == aid then applyAttachPatch a { label := none, deleted := some true } else a) } :=
      persistedAfterRemove_of o aid _ hrem1
    have hmem1 : (if a0._id == aid then applyAttachPatch a0 { label := none, deleted := some true } else a0)
        ∈ (persistedAfterRemove o aid).attachments := by
      rw [hp1]
      exact List.mem_map_of_mem _ ha0
    have hid1 : (if a0._id == aid then applyAttachPatch a0 { label := none, deleted := some true } else a0)._id = aid := by
      rw [removed_id]
      exact hid0
    have hany2 : (persistedAfterRemove o aid).attachments.any (fun a => a._id == aid) = true := by
      rw [List.any_eq_true]
      exact ⟨_, hmem1, beq_iff_eq.mpr hid1⟩
    have h2 := modify_attachment_of_mem (persistedAfterRemove o aid) aid
      { label := none, deleted := some true } hany2
    have hrem2 : remove_attachment (persistedAfterRemove o aid) aid =
        some { persistedAfterRemove o aid with
          attachments := (persistedAfterRemove o aid).attachments.map (fun a =>
            if a._id == aid then applyAttachPatch a { label := none, deleted := some true } else a) } := h2
    have hp2 : persistedAfterRemove (persistedAfterRemove o aid) aid =
        { persistedAfterRemove o aid with
          attachments := (persistedAfterRemove o aid).attachments.map (fun a =>
            if a._id == aid then applyAttachPatch a { label := none, deleted := some true } else a) } :=
      persistedAfterRemove_of (persistedAfterRemove o aid) aid _ hrem2
    have hlen2 : (persistedAfterRemove (persistedAfterRemove o aid) aid).attachments.length =
        o.attachments.length := by
      rw [hp2]
      simp [hp1]
    refine ⟨by simp [hrem1], by simp [hp1], ?_, by simp [hrem2], hlen2, ?_⟩
    · intro a ha hid
      rw [hp1] at ha
      exact removed_deleted _ _ _ ha hid
    · intro a ha hid
      rw [hp2] at ha
      exact removed_deleted _ _ _ ha hid

/-- C10 witness: removing the existing attachment a1 twice keeps one
attachment in the sequence, and a missing attachment id is a no-op. -/
theorem C10_attachment_modify_safe_witness :
    (remove_attachment oppAtt "a1").isSome = true ∧
    (persistedAfterRemove (persistedAfterRemove oppAtt "a1") "a1").attachments.length =
      oppAtt.attachments.length ∧
    modify_attachment oppAtt "zzz" { label := none, deleted := some true } = none := by
  have h := (C10_attachment_modify_safe oppAtt "a1" { label := none, deleted := none }).2
    ⟨{ _id := "a1", label := some "f.pdf", deleted := false }, by decide, rfl⟩
  have h0 := (C10_attachment_modify_safe oppAtt "zzz"
    { label := none, deleted := some true }).1 (by decide)
  exact ⟨h.1, h.2.2.2.2.1, h0.1⟩
